import Mathlib

/-!
Verification development for a small Express + MongoDB banking backend.

The server (src/unnamed/part_000) exposes user CRUD routes backed by a
`users` collection and bank routes backed by a `transactions` collection.
Transactions (src/models/Transaction.js) carry a kind (source field `type`,
an enum of "deposit" / "withdrawal") and a numeric `amount`.

Embedding choices:
* Request-body values reaching a handler (`req.body.amount`, `req.body.name`)
  are arbitrary JavaScript values, modelled by `JSValue`.
* JavaScript numbers are modelled by `JSNum`: an exact rational for the
  finite case plus the three non-finite doubles NaN, +Infinity, -Infinity.
  Finite arithmetic is taken exact (rational); the spec itself leaves
  float rounding unspecified, and no claim here turns on rounding.
  Comparisons and addition follow JavaScript / IEEE semantics for the
  non-finite values (NaN compares false with everything, opposite
  infinities add to NaN), which several claims turn on.
* A MongoDB collection is a list of documents in insertion order.
  `aggregate` with a `$group` stage returns no row for an empty input,
  modelled by `Option`; the handlers' `x[0]?.total || 0` coercion is
  modelled by `orZero` (note `NaN || 0` evaluates to `0` in JavaScript,
  since NaN is falsy).
* Saving a document can fault: Mongoose's Number cast rejects NaN, and a
  `required` String path rejects a missing or empty name. A handler with
  no catch then ends as an unhandled fault, modelled by `Except`: the
  request completes with no persisted document and no structured
  response. In particular a NaN amount passes the `amount <= 0` guard
  but can never be persisted, while +Infinity passes, casts, and is
  persisted (a JSON body `1e999` parses to Infinity).
* The `date` field and its descending sort in GET /transactions are
  elided: insertion order stands in for ascending creation time, so the
  newest-first listing is the reversed list.
-/

/-- Model of a JavaScript number: an exact rational in the finite case,
or one of the non-finite IEEE doubles. -/
inductive JSNum where
  | fin (q : ℚ)
  | nan
  | posInf
  | negInf
deriving DecidableEq, Repr

/-- Model of a JavaScript value as it can appear in a parsed request body. -/
inductive JSValue where
  | num (n : JSNum)
  | str (s : String)
  | boolean (b : Bool)
  | null
  | undef
deriving DecidableEq, Repr

namespace JSNum

/-- JavaScript `a <= b`: false whenever either side is NaN. -/
def jsLe : JSNum → JSNum → Bool
  | .nan, _ => false
  | _, .nan => false
  | .fin a, .fin b => decide (a ≤ b)
  | .negInf, _ => true
  | _, .posInf => true
  | .posInf, _ => false
  | _, .negInf => false

/-- JavaScript `a < b`: false whenever either side is NaN. -/
def jsLt : JSNum → JSNum → Bool
  | .nan, _ => false
  | _, .nan => false
  | .fin a, .fin b => decide (a < b)
  | .negInf, .negInf => false
  | .posInf, .posInf => false
  | .negInf, _ => true
  | _, .posInf => true
  | .posInf, _ => false
  | _, .negInf => false

/-- JavaScript / IEEE addition: NaN is absorbing, opposite infinities
give NaN, an infinity plus anything else of like sign stays put. -/
def jsAdd : JSNum → JSNum → JSNum
  | .nan, _ => .nan
  | _, .nan => .nan
  | .fin a, .fin b => .fin (a + b)
  | .posInf, .negInf => .nan
  | .negInf, .posInf => .nan
  | .posInf, _ => .posInf
  | .negInf, _ => .negInf
  | _, .posInf => .posInf
  | _, .negInf => .negInf

/-- JavaScript negation; also models the `$multiply [amount, -1]`
used in the withdrawal aggregation pipeline. -/
def jsNeg : JSNum → JSNum
  | .fin a => .fin (-a)
  | .nan => .nan
  | .posInf => .negInf
  | .negInf => .posInf

/-- JavaScript subtraction `a - b`. -/
def jsSub (a b : JSNum) : JSNum := jsAdd a (jsNeg b)

/-- JavaScript truthiness of a number: `0` and `NaN` are falsy. -/
def truthy : JSNum → Bool
  | .fin q => decide (q ≠ 0)
  | .nan => false
  | .posInf => true
  | .negInf => true

end JSNum

open JSNum

/-- The `type` enum of the Transaction schema (src/models/Transaction.js):
only "deposit" and "withdrawal" are valid. Named `kind` here because
`type` is unusable as a field name in Lean. -/
inductive TxKind where
  | deposit
  | withdrawal
deriving DecidableEq, Repr

/-- A document of the `transactions` collection: a kind and an amount
(the `date` field is elided, see the header comment). -/
structure Transaction where
  kind : TxKind
  amount : JSNum
deriving DecidableEq, Repr

/-- A document of the `users` collection. The ObjectId is modelled as a
natural number; `name` keeps the raw request value (Mongoose string
casting is irrelevant to every claim). -/
structure User where
  id : Nat
  name : JSValue
deriving DecidableEq, Repr

/-- JSON bodies the routes can answer with. `deposited` / `withdrew`
stand for the template strings `Deposited $<amount>` / `Withdrew $<amount>`. -/
inductive JsonBody where
  | msg (m : String)
  | err (e : String)
  | balanceVal (b : JSNum)
  | txList (l : List Transaction)
  | userVal (u : User)
  | userListVal (l : List User)
  | deposited (a : JSNum)
  | withdrew (a : JSNum)
deriving DecidableEq, Repr

/-- An HTTP response: status code plus JSON body. -/
structure Response where
  status : Nat
  body : JsonBody
deriving DecidableEq, Repr

/-- Mongoose faults that surface as rejected promises inside a handler
with no catch: the request ends as an unhandled fault, not a response.
`castFailed` is a cast error at save time (the Number cast rejects NaN),
`validationFailed` a failed `required` validator. -/
inductive MongooseFault where
  | validationFailed
  | castFailed
deriving DecidableEq, Repr

/-- Mongoose's Number cast test applied when a transaction is saved:
every JS number casts except NaN (`castNumber` asserts the value is not
NaN), so saving a NaN amount rejects and the catch-less handler faults. -/
def isNaN : JSNum → Bool
  | .nan => true
  | _ => false

/-- Amounts of the deposit documents, in insertion order
(the `$match: {type: "deposit"}` stage of GET /balance). -/
def depositAmounts (s : List Transaction) : List JSNum :=
  (s.filter fun t => match t.kind with | .deposit => true | .withdrawal => false).map
    Transaction.amount

/-- Amounts of the withdrawal documents, in insertion order
(the `$match: {type: "withdrawal"}` stage of GET /balance). -/
def withdrawAmounts (s : List Transaction) : List JSNum :=
  (s.filter fun t => match t.kind with | .deposit => false | .withdrawal => true).map
    Transaction.amount

/-- The `$sum` accumulator over a list of amounts. -/
def sumAmounts (l : List JSNum) : JSNum := l.foldr jsAdd (.fin 0)

/-- A `$group: {_id: null, total: {$sum: ...}}` aggregation: no result row
when the matched input is empty, otherwise one row holding the sum. -/
def aggTotal (l : List JSNum) : Option JSNum :=
  match l with
  | [] => none
  | _ => some (sumAmounts l)

/-- The handlers' `agg[0]?.total || 0` idiom. Note that `NaN || 0` is `0`
in JavaScript because NaN is falsy. -/
def orZero : Option JSNum → JSNum
  | none => .fin 0
  | some v => if truthy v then v else .fin 0

/-- `totalDeposits` of the GET /balance handler. -/
def totalDeposits (s : List Transaction) : JSNum :=
  orZero (aggTotal (depositAmounts s))

/-- `totalWithdrawals` of the GET /balance handler. -/
def totalWithdrawals (s : List Transaction) : JSNum :=
  orZero (aggTotal (withdrawAmounts s))

/-- The balance number GET /balance responds with:
`totalDeposits - totalWithdrawals`. -/
def getBalance (s : List Transaction) : JSNum :=
  jsSub (totalDeposits s) (totalWithdrawals s)

/-- The `$cond` branch of the withdrawal pipeline: a deposit contributes
its amount, a withdrawal contributes `$multiply [amount, -1]`. -/
def signedAmount (t : Transaction) : JSNum :=
  match t.kind with
  | .deposit => t.amount
  | .withdrawal => jsNeg t.amount

/-- The single-pass signed sum of the whole collection. -/
def signedTotal (s : List Transaction) : JSNum :=
  sumAmounts (s.map signedAmount)

/-- The `$group` aggregation of POST /withdraw: no row on an empty
collection, otherwise the signed sum. -/
def aggBalance (s : List Transaction) : Option JSNum :=
  match s with
  | [] => none
  | _ => some (signedTotal s)

/-- `currentBalance[0]?.balance || 0` inside POST /withdraw. -/
def withdrawBalance (s : List Transaction) : JSNum :=
  orZero (aggBalance s)

/-- The validation both bank handlers run on `req.body.amount`:
`typeof amount !== "number" || amount <= 0` means the value is admitted
exactly when it is a number that does not compare `<= 0`. -/
def validAmount : JSValue → Bool
  | .num a => !(jsLe a (.fin 0))
  | _ => false

/-- POST /deposit: validate, then `save()` a deposit document and answer
200, or answer 400 without touching the store. A NaN amount passes the
validation (`NaN <= 0` is false) but fails Mongoose's Number cast at
save time: the awaited save rejects, nothing is persisted, and the
catch-less handler ends as an unhandled fault. -/
def postDeposit (s : List Transaction) (amount : JSValue) :
    List Transaction × Except MongooseFault Response :=
  match amount with
  | .num a =>
      if jsLe a (.fin 0) then
        (s, .ok ⟨400, .err "Invalid deposit amount"⟩)
      else if isNaN a then
        (s, .error .castFailed)
      else
        (s ++ [⟨.deposit, a⟩], .ok ⟨200, .deposited a⟩)
  | _ => (s, .ok ⟨400, .err "Invalid deposit amount"⟩)

/-- POST /withdraw: validate, recompute the balance with the single-pass
aggregation, reject when `amount > balance`, otherwise `save()` a
withdrawal document. A NaN amount passes both checks (`NaN <= 0` and
`NaN > balance` are false) but fails the Number cast at save time:
nothing is persisted and the request ends as an unhandled fault. -/
def postWithdraw (s : List Transaction) (amount : JSValue) :
    List Transaction × Except MongooseFault Response :=
  match amount with
  | .num a =>
      if jsLe a (.fin 0) then
        (s, .ok ⟨400, .err "Invalid withdrawal amount"⟩)
      else if jsLt (withdrawBalance s) a then
        (s, .ok ⟨400, .err "Insufficient funds"⟩)
      else if isNaN a then
        (s, .error .castFailed)
      else
        (s ++ [⟨.withdrawal, a⟩], .ok ⟨200, .withdrew a⟩)
  | _ => (s, .ok ⟨400, .err "Invalid withdrawal amount"⟩)

/-- GET /transactions: all documents, newest first (descending date =
reversed insertion order). -/
def getTransactions (s : List Transaction) : Response :=
  ⟨200, .txList s.reverse⟩

/-- DELETE /transactions: `deleteMany({})` then an unconditional 200. -/
def deleteTransactions (_s : List Transaction) : List Transaction × Response :=
  ([], ⟨200, .msg "All transactions cleared."⟩)

/-- GET /users. -/
def getUsers (users : List User) : Response :=
  ⟨200, .userListVal users⟩

/-- GET /users/:id. -/
def getUserById (users : List User) (oid : Nat) : Response :=
  match users.find? fun u => decide (u.id = oid) with
  | none => ⟨404, .err "User not found"⟩
  | some u => ⟨200, .userVal u⟩

/-- Mongoose `required: true` on the User `name` path: saving fails when
the field is missing (undefined or null); for a String path Mongoose's
required check additionally rejects the empty string. Other values are
cast to a nonempty string first. -/
def requiredNamePresent : JSValue → Bool
  | .undef => false
  | .null => false
  | .str s => !s.isEmpty
  | _ => true

/-- POST /users: build a user from `req.body.name` and `save()` it.
A validation failure rejects the awaited promise and the handler has no
catch, so the request terminates as an unhandled fault. `oid` is the
store-assigned ObjectId of the new document. -/
def postUsers (users : List User) (oid : Nat) (name : JSValue) :
    List User × Except MongooseFault Response :=
  if requiredNamePresent name then
    (users ++ [⟨oid, name⟩], .ok ⟨201, .userVal ⟨oid, name⟩⟩)
  else
    (users, .error .validationFailed)

/-- PUT /users/:id: `findByIdAndUpdate` of the name field with
`{new: true}`, answering with the updated user document (an undefined
name key is dropped by Mongoose and updates nothing). -/
def putUserById (users : List User) (oid : Nat) (name : JSValue) :
    List User × Response :=
  match users.find? fun u => decide (u.id = oid) with
  | none => (users, ⟨404, .err "User not found"⟩)
  | some u =>
      let updated : User := if name = .undef then u else { u with name := name }
      (users.map fun w => if w.id = oid then updated else w, ⟨200, .userVal updated⟩)

/-- DELETE /users/:id: `findByIdAndDelete`. -/
def deleteUserById (users : List User) (oid : Nat) : List User × Response :=
  if users.any fun u => decide (u.id = oid) then
    (users.filter fun u => !(decide (u.id = oid)), ⟨200, .msg "User deleted"⟩)
  else
    (users, ⟨404, .err "User not found"⟩)

/-- The whole mutable state: the two MongoDB collections. -/
structure AppState where
  users : List User
  txs : List Transaction
deriving DecidableEq, Repr

/-- POST /deposit lifted to the whole state. -/
def appPostDeposit (st : AppState) (v : JSValue) :
    AppState × Except MongooseFault Response :=
  let r := postDeposit st.txs v
  ({ st with txs := r.1 }, r.2)

/-- POST /withdraw lifted to the whole state. -/
def appPostWithdraw (st : AppState) (v : JSValue) :
    AppState × Except MongooseFault Response :=
  let r := postWithdraw st.txs v
  ({ st with txs := r.1 }, r.2)

/-- DELETE /transactions lifted to the whole state. -/
def appDeleteTransactions (st : AppState) : AppState × Response :=
  let r := deleteTransactions st.txs
  ({ st with txs := r.1 }, r.2)

/-- POST /users lifted to the whole state. -/
def appPostUsers (st : AppState) (oid : Nat) (name : JSValue) :
    AppState × Except MongooseFault Response :=
  let r := postUsers st.users oid name
  ({ st with users := r.1 }, r.2)

/-- PUT /users/:id lifted to the whole state. -/
def appPutUserById (st : AppState) (oid : Nat) (name : JSValue) :
    AppState × Response :=
  let r := putUserById st.users oid name
  ({ st with users := r.1 }, r.2)

/-- DELETE /users/:id lifted to the whole state. -/
def appDeleteUserById (st : AppState) (oid : Nat) : AppState × Response :=
  let r := deleteUserById st.users oid
  ({ st with users := r.1 }, r.2)

/-- The transaction-store mutating requests the reachability claims
quantify over. -/
inductive BankRequest where
  | depositReq (amount : JSValue)
  | withdrawReq (amount : JSValue)
  | clearReq

/-- Effect of one completed bank request on the transactions collection. -/
def bankStep (s : List Transaction) : BankRequest → List Transaction
  | .depositReq v => (postDeposit s v).1
  | .withdrawReq v => (postWithdraw s v).1
  | .clearReq => (deleteTransactions s).1

/-- Stores reachable from the empty collection by completed deposit,
withdraw and clear requests, processed one at a time. -/
inductive ReachableStore : List Transaction → Prop
  | empty : ReachableStore []
  | step {s : List Transaction} (r : BankRequest) :
      ReachableStore s → ReachableStore (bankStep s r)

/-- Modelled from the spec: "amount is a positive finite number" — the
admission condition the specification prescribes for both bank writes. -/
def specPositiveFinite : JSValue → Bool
  | .num (.fin q) => decide (0 < q)
  | _ => false

/-- Modelled from the spec: the balance as the specification words it,
"sum of the deposit amounts minus the sum of the withdrawal amounts". -/
def specBalance (s : List Transaction) : JSNum :=
  jsSub (sumAmounts (depositAmounts s)) (sumAmounts (withdrawAmounts s))

namespace JSNum

theorem jsAdd_comm (a b : JSNum) : jsAdd a b = jsAdd b a := by
  cases a <;> cases b <;> simp [jsAdd] <;> ring

theorem jsAdd_assoc (a b c : JSNum) : jsAdd (jsAdd a b) c = jsAdd a (jsAdd b c) := by
  cases a <;> cases b <;> cases c <;> simp [jsAdd] <;> ring

theorem jsSub_jsAdd_right (a b c : JSNum) : jsSub a (jsAdd b c) = jsSub (jsSub a b) c := by
  cases a <;> cases b <;> cases c <;> simp [jsSub, jsAdd, jsNeg] <;> ring

theorem jsSub_push_pos (a d w : JSNum) : jsSub (jsAdd a d) w = jsAdd a (jsSub d w) := by
  cases a <;> cases d <;> cases w <;> simp [jsSub, jsAdd, jsNeg] <;> ring

theorem jsSub_push_neg (a d w : JSNum) : jsSub d (jsAdd a w) = jsAdd (jsNeg a) (jsSub d w) := by
  cases a <;> cases d <;> cases w <;> simp [jsSub, jsAdd, jsNeg] <;> ring

theorem jsAdd_eq_nan (a b : JSNum) :
    jsAdd a b = nan ↔
      a = nan ∨ b = nan ∨ (a = posInf ∧ b = negInf) ∨ (a = negInf ∧ b = posInf) := by
  cases a <;> cases b <;> simp [jsAdd]

theorem jsAdd_eq_posInf (a b : JSNum) (h : jsAdd a b = posInf) :
    a = posInf ∨ b = posInf := by
  cases a <;> cases b <;> simp_all [jsAdd]

theorem jsSub_eq_nan (a b : JSNum) :
    jsSub a b = nan ↔
      a = nan ∨ b = nan ∨ (a = posInf ∧ b = posInf) ∨ (a = negInf ∧ b = negInf) := by
  cases a <;> cases b <;> simp [jsSub, jsAdd, jsNeg]

theorem jsSub_eq_posInf (a b : JSNum) (h : jsSub a b = posInf) :
    a = posInf ∨ b = negInf := by
  cases a <;> cases b <;> simp_all [jsSub, jsAdd, jsNeg]

theorem jsLe_nan_right (a : JSNum) : jsLe a nan = false := by
  cases a <;> rfl

theorem jsLt_nan_right (a : JSNum) : jsLt a nan = false := by
  cases a <;> rfl

theorem jsLt_nan_left (a : JSNum) : jsLt nan a = false := by
  cases a <;> rfl

theorem jsLe_of_not_lt {a b : JSNum} (ha : a ≠ nan) (hb : b ≠ nan)
    (h : jsLt b a = false) : jsLe a b = true := by
  cases a <;> cases b <;> simp_all [jsLt, jsLe] <;> linarith

theorem jsLt_false_of_le {a b : JSNum} (h : jsLe a b = true) : jsLt b a = false := by
  cases a <;> cases b <;> simp_all [jsLt, jsLe] <;> linarith

theorem ne_nan_of_jsLe {a b : JSNum} (h : jsLe a b = true) : a ≠ nan ∧ b ≠ nan := by
  cases a <;> cases b <;> simp_all [jsLe]

theorem ne_nan_of_jsLt {a b : JSNum} (h : jsLt a b = true) : a ≠ nan ∧ b ≠ nan := by
  cases a <;> cases b <;> simp_all [jsLt]

theorem jsLt_zero_of_admitted {a : JSNum} (h : jsLe a (fin 0) = false) (hn : a ≠ nan) :
    jsLt (fin 0) a = true := by
  cases a <;> simp_all [jsLe, jsLt] <;> linarith

theorem ne_negInf_of_admitted {a : JSNum} (h : jsLe a (fin 0) = false) : a ≠ negInf := by
  cases a <;> simp_all [jsLe]

end JSNum

theorem orZero_ne_nan (x : Option JSNum) : orZero x ≠ .nan := by
  match x with
  | none => simp [orZero]
  | some v => cases v <;> simp [orZero, truthy] <;> split <;> simp

theorem orZero_some_of_ne_nan {v : JSNum} (h : v ≠ .nan) : orZero (some v) = v := by
  cases v with
  | fin q =>
      by_cases hq : q = 0 <;> simp [orZero, truthy, hq]
  | nan => exact absurd rfl h
  | posInf => rfl
  | negInf => rfl

theorem sumAmounts_nil : sumAmounts [] = .fin 0 := rfl

theorem sumAmounts_cons (a : JSNum) (l : List JSNum) :
    sumAmounts (a :: l) = jsAdd a (sumAmounts l) := rfl

theorem sumAmounts_append_single (l : List JSNum) (a : JSNum) :
    sumAmounts (l ++ [a]) = jsAdd (sumAmounts l) a := by
  induction l with
  | nil => simp [sumAmounts_nil, sumAmounts_cons, jsAdd_comm]
  | cons x t ih =>
      simp only [List.cons_append, sumAmounts_cons, ih, jsAdd_assoc]

theorem sumAmounts_ne_nan_negInf {l : List JSNum}
    (h : ∀ x ∈ l, x ≠ .nan ∧ x ≠ .negInf) :
    sumAmounts l ≠ .nan ∧ sumAmounts l ≠ .negInf := by
  induction l with
  | nil => simp [sumAmounts_nil]
  | cons x t ih =>
      have hx := h x (by simp)
      have ht := ih fun y hy => h y (by simp [hy])
      rw [sumAmounts_cons]
      rcases hx with ⟨hx1, hx2⟩
      rcases ht with ⟨ht1, ht2⟩
      cases x <;> cases hs : sumAmounts t <;> simp_all [jsAdd]

theorem sumAmounts_eq_posInf_mem {l : List JSNum} (h : sumAmounts l = .posInf) :
    .posInf ∈ l := by
  induction l with
  | nil => simp [sumAmounts_nil] at h
  | cons x t ih =>
      rw [sumAmounts_cons] at h
      rcases jsAdd_eq_posInf _ _ h with h1 | h1
      · simp [h1]
      · simp [ih h1]

theorem sumAmounts_posInf_of_mem {l : List JSNum} (hm : .posInf ∈ l)
    (h : ∀ x ∈ l, x ≠ .nan ∧ x ≠ .negInf) : sumAmounts l = .posInf := by
  induction l with
  | nil => simp at hm
  | cons x t ih =>
      rw [sumAmounts_cons]
      have ht := sumAmounts_ne_nan_negInf fun y hy => h y (List.mem_cons_of_mem _ hy)
      rcases List.mem_cons.mp hm with hx | hx
      · subst hx
        cases hs : sumAmounts t <;> simp_all [jsAdd]
      · have := ih hx fun y hy => h y (List.mem_cons_of_mem _ hy)
        rw [this]
        have hx1 := h x (by simp)
        cases x <;> simp_all [jsAdd]

/-- The finite value of a JS number, zero on the non-finite ones. -/
def finPart : JSNum → ℚ
  | .fin q => q
  | _ => 0

/-- Exact rational sum of the finite parts of a list of amounts. -/
def finSum (l : List JSNum) : ℚ := (l.map finPart).sum

theorem sumAmounts_fin {l : List JSNum} (h : ∀ x ∈ l, ∃ q, x = .fin q) :
    sumAmounts l = .fin (finSum l) := by
  induction l with
  | nil => simp [sumAmounts_nil, finSum]
  | cons x t ih =>
      rcases h x (by simp) with ⟨q, hq⟩
      subst hq
      rw [sumAmounts_cons, ih fun y hy => h y (List.mem_cons_of_mem _ hy)]
      simp [jsAdd, finSum, finPart]

theorem depositAmounts_append_dep (s : List Transaction) (a : JSNum) :
    depositAmounts (s ++ [⟨.deposit, a⟩]) = depositAmounts s ++ [a] := by
  simp [depositAmounts]

theorem depositAmounts_append_wd (s : List Transaction) (a : JSNum) :
    depositAmounts (s ++ [⟨.withdrawal, a⟩]) = depositAmounts s := by
  simp [depositAmounts]

theorem withdrawAmounts_append_dep (s : List Transaction) (a : JSNum) :
    withdrawAmounts (s ++ [⟨.deposit, a⟩]) = withdrawAmounts s := by
  simp [withdrawAmounts]

theorem withdrawAmounts_append_wd (s : List Transaction) (a : JSNum) :
    withdrawAmounts (s ++ [⟨.withdrawal, a⟩]) = withdrawAmounts s ++ [a] := by
  simp [withdrawAmounts]

theorem signedTotal_decomp (s : List Transaction) :
    signedTotal s = jsSub (sumAmounts (depositAmounts s)) (sumAmounts (withdrawAmounts s)) := by
  induction s with
  | nil =>
      norm_num [signedTotal, sumAmounts, jsSub, jsAdd, jsNeg, depositAmounts,
        withdrawAmounts]
  | cons t rest ih =>
      cases t with
      | mk k a =>
          cases k with
          | deposit =>
              have hd : depositAmounts (⟨TxKind.deposit, a⟩ :: rest) =
                  a :: depositAmounts rest := by simp [depositAmounts]
              have hw : withdrawAmounts (⟨TxKind.deposit, a⟩ :: rest) =
                  withdrawAmounts rest := by simp [withdrawAmounts]
              rw [hd, hw]
              have : signedTotal (⟨TxKind.deposit, a⟩ :: rest) =
                  jsAdd a (signedTotal rest) := by
                simp [signedTotal, signedAmount, sumAmounts_cons]
              rw [this, ih, sumAmounts_cons, jsSub_push_pos]
          | withdrawal =>
              have hd : depositAmounts (⟨TxKind.withdrawal, a⟩ :: rest) =
                  depositAmounts rest := by simp [depositAmounts]
              have hw : withdrawAmounts (⟨TxKind.withdrawal, a⟩ :: rest) =
                  a :: withdrawAmounts rest := by simp [withdrawAmounts]
              rw [hd, hw]
              have : signedTotal (⟨TxKind.withdrawal, a⟩ :: rest) =
                  jsAdd (jsNeg a) (signedTotal rest) := by
                simp [signedTotal, signedAmount, sumAmounts_cons]
              rw [this, ih, sumAmounts_cons, jsSub_push_neg]

theorem orZero_aggTotal {l : List JSNum} (h : sumAmounts l ≠ .nan) :
    orZero (aggTotal l) = sumAmounts l := by
  cases l with
  | nil => rfl
  | cons x t => exact orZero_some_of_ne_nan h

theorem withdrawBalance_eq_signedTotal {s : List Transaction}
    (h : signedTotal s ≠ .nan) : withdrawBalance s = signedTotal s := by
  cases s with
  | nil => rfl
  | cons t rest => exact orZero_some_of_ne_nan h

theorem getBalance_eq_spec {s : List Transaction}
    (hd : sumAmounts (depositAmounts s) ≠ .nan)
    (hw : sumAmounts (withdrawAmounts s) ≠ .nan) :
    getBalance s = specBalance s := by
  unfold getBalance specBalance totalDeposits totalWithdrawals
  rw [orZero_aggTotal hd, orZero_aggTotal hw]

namespace JSNum

theorem jsAdd_eq_negInf (a b : JSNum) (h : jsAdd a b = negInf) :
    a = negInf ∨ b = negInf := by
  cases a <;> cases b <;> simp_all [jsAdd]

theorem jsSub_ne_nan_parts {a b : JSNum} (h : jsSub a b ≠ nan) : a ≠ nan ∧ b ≠ nan := by
  cases a <;> cases b <;> simp_all [jsSub, jsAdd, jsNeg]

theorem jsLt_posInf_false {b : JSNum} (h : jsLt b posInf = false) :
    b = posInf ∨ b = nan := by
  cases b <;> simp_all [jsLt]

theorem fin_of_ne {a : JSNum} (h1 : a ≠ nan) (h2 : a ≠ posInf) (h3 : a ≠ negInf) :
    ∃ q, a = fin q := by
  cases a <;> simp_all

end JSNum

theorem sumAmounts_eq_negInf_mem {l : List JSNum} (h : sumAmounts l = .negInf) :
    .negInf ∈ l := by
  induction l with
  | nil => simp [sumAmounts_nil] at h
  | cons x t ih =>
      rw [sumAmounts_cons] at h
      rcases jsAdd_eq_negInf _ _ h with h1 | h1
      · simp [h1]
      · simp [ih h1]

theorem finSum_append (l : List JSNum) (a : JSNum) :
    finSum (l ++ [a]) = finSum l + finPart a := by
  simp [finSum]

theorem orZero_eq_or (x : Option JSNum) :
    orZero x = .fin 0 ∨ ∃ v, x = some v ∧ truthy v = true ∧ orZero x = v := by
  cases x with
  | none => exact Or.inl rfl
  | some v =>
      by_cases h : truthy v = true
      · exact Or.inr ⟨v, rfl, h, by simp [orZero, h]⟩
      · left
        have h' : truthy v = false := by simpa using h
        simp [orZero, h']

theorem aggBalance_some {s : List Transaction} {v : JSNum}
    (h : aggBalance s = some v) : v = signedTotal s := by
  cases s with
  | nil => simp [aggBalance] at h
  | cons t rest =>
      simp [aggBalance] at h
      exact h.symm

theorem depositAmounts_mem {s : List Transaction} {x : JSNum}
    (hx : x ∈ depositAmounts s) : ∃ t ∈ s, t.amount = x := by
  obtain ⟨t, ht, rfl⟩ := List.mem_map.mp hx
  exact ⟨t, (List.mem_filter.mp ht).1, rfl⟩

theorem withdrawAmounts_mem {s : List Transaction} {x : JSNum}
    (hx : x ∈ withdrawAmounts s) : ∃ t ∈ s, t.amount = x := by
  obtain ⟨t, ht, rfl⟩ := List.mem_map.mp hx
  exact ⟨t, (List.mem_filter.mp ht).1, rfl⟩

/-- Every transaction of the store passed the admission validation:
its amount is a number that does not compare `<= 0`. -/
def Admitted (s : List Transaction) : Prop :=
  ∀ t ∈ s, jsLe t.amount (.fin 0) = false

/-- No stored transaction carries the amount NaN. -/
def NoNaNAmount (s : List Transaction) : Prop :=
  ∀ t ∈ s, t.amount ≠ .nan

/-- Exact rational balance over the finite parts of the amounts. -/
def finBal (s : List Transaction) : ℚ :=
  finSum (depositAmounts s) - finSum (withdrawAmounts s)

theorem amounts_ok_of {s : List Transaction} (hA : Admitted s) (hN : NoNaNAmount s) :
    (∀ x ∈ depositAmounts s, x ≠ .nan ∧ x ≠ .negInf) ∧
    (∀ x ∈ withdrawAmounts s, x ≠ .nan ∧ x ≠ .negInf) := by
  constructor
  · intro x hx
    obtain ⟨t, ht, rfl⟩ := depositAmounts_mem hx
    exact ⟨hN t ht, ne_negInf_of_admitted (hA t ht)⟩
  · intro x hx
    obtain ⟨t, ht, rfl⟩ := withdrawAmounts_mem hx
    exact ⟨hN t ht, ne_negInf_of_admitted (hA t ht)⟩

theorem ne_nan_of_isNaN_false {a : JSNum} (h : isNaN a = false) : a ≠ .nan := by
  cases a <;> simp_all [isNaN]

theorem isNaN_false_of_ne_nan {a : JSNum} (h : a ≠ .nan) : isNaN a = false := by
  cases a <;> simp_all [isNaN]

theorem postDeposit_store (s : List Transaction) (v : JSValue) :
    (postDeposit s v).1 = s ∨
      ∃ a, v = .num a ∧ jsLe a (.fin 0) = false ∧ isNaN a = false ∧
        (postDeposit s v).1 = s ++ [⟨.deposit, a⟩] := by
  cases v with
  | num a =>
      by_cases h : jsLe a (.fin 0) = true
      · left
        simp [postDeposit, h]
      · have h' : jsLe a (.fin 0) = false := by simpa using h
        by_cases hn : isNaN a = true
        · left
          simp [postDeposit, h', hn]
        · have hn' : isNaN a = false := by simpa using hn
          exact Or.inr ⟨a, rfl, h', hn', by simp [postDeposit, h', hn']⟩
  | str s => exact Or.inl rfl
  | boolean b => exact Or.inl rfl
  | null => exact Or.inl rfl
  | undef => exact Or.inl rfl

theorem postWithdraw_store (s : List Transaction) (v : JSValue) :
    (postWithdraw s v).1 = s ∨
      ∃ a, v = .num a ∧ jsLe a (.fin 0) = false ∧
        jsLt (withdrawBalance s) a = false ∧ isNaN a = false ∧
        (postWithdraw s v).1 = s ++ [⟨.withdrawal, a⟩] := by
  cases v with
  | num a =>
      by_cases h : jsLe a (.fin 0) = true
      · left
        simp [postWithdraw, h]
      · have h' : jsLe a (.fin 0) = false := by simpa using h
        by_cases hb : jsLt (withdrawBalance s) a = true
        · left
          simp [postWithdraw, h', hb]
        · have hb' : jsLt (withdrawBalance s) a = false := by simpa using hb
          by_cases hn : isNaN a = true
          · left
            simp [postWithdraw, h', hb', hn]
          · have hn' : isNaN a = false := by simpa using hn
            exact Or.inr ⟨a, rfl, h', hb', hn', by simp [postWithdraw, h', hb', hn']⟩
  | str s => exact Or.inl rfl
  | boolean b => exact Or.inl rfl
  | null => exact Or.inl rfl
  | undef => exact Or.inl rfl

theorem withdrawBalance_posInf {s : List Transaction} (hA : Admitted s)
    (h : withdrawBalance s = .posInf) : .posInf ∈ depositAmounts s := by
  rcases orZero_eq_or (aggBalance s) with h0 | ⟨v, hv, htr, hval⟩
  · rw [withdrawBalance] at h
    rw [h0] at h
    exact absurd h (by simp)
  · have hvs : v = signedTotal s := aggBalance_some hv
    have hsp : signedTotal s = .posInf := by
      rw [← hvs]
      rw [withdrawBalance, hval] at h
      exact h
    rw [signedTotal_decomp] at hsp
    rcases jsSub_eq_posInf _ _ hsp with hd | hw
    · exact sumAmounts_eq_posInf_mem hd
    · exfalso
      have hm := sumAmounts_eq_negInf_mem hw
      obtain ⟨t, ht, hta⟩ := withdrawAmounts_mem hm
      exact ne_negInf_of_admitted (hA t ht) hta

theorem withdrawBalance_fin {s : List Transaction}
    (hd : ∀ x ∈ depositAmounts s, ∃ q, x = .fin q)
    (hw : ∀ x ∈ withdrawAmounts s, ∃ q, x = .fin q) :
    withdrawBalance s = .fin (finBal s) := by
  have hsd := sumAmounts_fin hd
  have hsw := sumAmounts_fin hw
  have hst : signedTotal s = .fin (finBal s) := by
    rw [signedTotal_decomp, hsd, hsw]
    simp [jsSub, jsAdd, jsNeg, finBal]
    ring
  cases s with
  | nil =>
      have : finBal ([] : List Transaction) = 0 := by
        norm_num [finBal, finSum, depositAmounts, withdrawAmounts]
      rw [this]
      rfl
  | cons t rest =>
      rw [withdrawBalance]
      have : aggBalance (t :: rest) = some (signedTotal (t :: rest)) := rfl
      rw [this, hst]
      exact orZero_some_of_ne_nan (by simp)

theorem getBalance_fin {s : List Transaction}
    (hd : ∀ x ∈ depositAmounts s, ∃ q, x = .fin q)
    (hw : ∀ x ∈ withdrawAmounts s, ∃ q, x = .fin q) :
    getBalance s = .fin (finBal s) := by
  have hsd := sumAmounts_fin hd
  have hsw := sumAmounts_fin hw
  have h := getBalance_eq_spec (s := s) (by rw [hsd]; simp) (by rw [hsw]; simp)
  rw [h, specBalance, hsd, hsw]
  simp [jsSub, jsAdd, jsNeg, finBal]
  ring

/-- The inductive invariant of the transactions store: every stored
amount passed admission and the Number cast (so no NaN is ever stored);
a +infinity withdrawal can only have been admitted under a +infinity
deposit; and while no +infinity deposit is stored, the exact finite
balance is nonnegative. -/
def StoreInv (s : List Transaction) : Prop :=
  Admitted s ∧ NoNaNAmount s ∧
  (.posInf ∈ withdrawAmounts s → .posInf ∈ depositAmounts s) ∧
  (.posInf ∉ depositAmounts s → 0 ≤ finBal s)

theorem storeInv_nil : StoreInv [] := by
  refine ⟨?_, ?_, ?_, ?_⟩ <;>
    norm_num [Admitted, NoNaNAmount, finBal, finSum, depositAmounts, withdrawAmounts]

theorem storeInv_deposit (s : List Transaction) (v : JSValue) (h : StoreInv s) :
    StoreInv (postDeposit s v).1 := by
  rcases postDeposit_store s v with he | ⟨a, hv, ha, han, he⟩
  · rwa [he]
  · rw [he]
    obtain ⟨h1, h2, h3, h4⟩ := h
    have haN : a ≠ .nan := ne_nan_of_isNaN_false han
    refine ⟨?_, ?_, ?_, ?_⟩
    · intro t ht
      rcases List.mem_append.mp ht with ht | ht
      · exact h1 t ht
      · simp at ht
        subst ht
        simpa using ha
    · intro t ht
      rcases List.mem_append.mp ht with ht | ht
      · exact h2 t ht
      · simp at ht
        subst ht
        simpa using haN
    · rw [withdrawAmounts_append_dep, depositAmounts_append_dep]
      intro hw
      exact List.mem_append_left _ (h3 hw)
    · intro hD
      rw [depositAmounts_append_dep] at hD
      have haP : a ≠ .posInf := fun hc => hD (by
        rw [hc]
        exact List.mem_append_right _ (by simp))
      have hDs : .posInf ∉ depositAmounts s := fun hc => hD (List.mem_append_left _ hc)
      have haNg : a ≠ .negInf := ne_negInf_of_admitted ha
      obtain ⟨q, hq⟩ := fin_of_ne haN haP haNg
      subst hq
      have hq0 : 0 < q := by
        simpa [jsLt] using jsLt_zero_of_admitted ha haN
      have hfb := h4 hDs
      have hnew : finBal (s ++ [⟨.deposit, .fin q⟩]) = finBal s + q := by
        rw [finBal, depositAmounts_append_dep, withdrawAmounts_append_dep, finSum_append]
        simp [finBal, finPart]
        ring
      rw [hnew]
      linarith

theorem storeInv_withdraw (s : List Transaction) (v : JSValue) (h : StoreInv s) :
    StoreInv (postWithdraw s v).1 := by
  rcases postWithdraw_store s v with he | ⟨a, hv, ha, hb, han, he⟩
  · rwa [he]
  · rw [he]
    obtain ⟨h1, h2, h3, h4⟩ := h
    have haN : a ≠ .nan := ne_nan_of_isNaN_false han
    have key : a = .posInf → .posInf ∈ depositAmounts s := by
      intro hap
      subst hap
      rcases jsLt_posInf_false hb with hB | hB
      · exact withdrawBalance_posInf h1 hB
      · exact absurd hB (orZero_ne_nan _)
    refine ⟨?_, ?_, ?_, ?_⟩
    · intro t ht
      rcases List.mem_append.mp ht with ht | ht
      · exact h1 t ht
      · simp at ht
        subst ht
        simpa using ha
    · intro t ht
      rcases List.mem_append.mp ht with ht | ht
      · exact h2 t ht
      · simp at ht
        subst ht
        simpa using haN
    · rw [withdrawAmounts_append_wd, depositAmounts_append_wd]
      intro hw
      rcases List.mem_append.mp hw with hw | hw
      · exact h3 hw
      · simp at hw
        exact key hw.symm
    · intro hD
      rw [depositAmounts_append_wd] at hD
      have haNg : a ≠ .negInf := ne_negInf_of_admitted ha
      have haP : a ≠ .posInf := fun hc => hD (key hc)
      obtain ⟨q, hq⟩ := fin_of_ne haN haP haNg
      subst hq
      have hq0 : 0 < q := by
        simpa [jsLt] using jsLt_zero_of_admitted ha haN
      have hWs : .posInf ∉ withdrawAmounts s := fun hc => hD (h3 hc)
      obtain ⟨hdOk, hwOk⟩ := amounts_ok_of h1 h2
      have hdFin : ∀ x ∈ depositAmounts s, ∃ p, x = .fin p := by
        intro x hx
        rcases hdOk x hx with ⟨hn, hg⟩
        exact fin_of_ne hn (fun hc => hD (hc ▸ hx)) hg
      have hwFin : ∀ x ∈ withdrawAmounts s, ∃ p, x = .fin p := by
        intro x hx
        rcases hwOk x hx with ⟨hn, hg⟩
        exact fin_of_ne hn (fun hc => hWs (hc ▸ hx)) hg
      have hB : withdrawBalance s = .fin (finBal s) := withdrawBalance_fin hdFin hwFin
      rw [hB] at hb
      have hqle : q ≤ finBal s := by
        have hnl : ¬ (finBal s < q) := by simpa [jsLt] using hb
        linarith
      have hnew : finBal (s ++ [⟨.withdrawal, .fin q⟩]) = finBal s - q := by
        rw [finBal, depositAmounts_append_wd, withdrawAmounts_append_wd, finSum_append]
        simp [finBal, finPart]
        ring
      rw [hnew]
      linarith

theorem storeInv_step (s : List Transaction) (r : BankRequest) (h : StoreInv s) :
    StoreInv (bankStep s r) := by
  cases r with
  | depositReq v => exact storeInv_deposit s v h
  | withdrawReq v => exact storeInv_withdraw s v h
  | clearReq => exact storeInv_nil

theorem reachable_storeInv {s : List Transaction} (h : ReachableStore s) : StoreInv s := by
  induction h with
  | empty => exact storeInv_nil
  | step r hs ih => exact storeInv_step _ r ih

theorem balance_not_negative_of_inv {s : List Transaction} (h : StoreInv s) :
    jsLt (getBalance s) (.fin 0) = false := by
  obtain ⟨h1, h2, h3, h4⟩ := h
  obtain ⟨hdOk, hwOk⟩ := amounts_ok_of h1 h2
  by_cases hD : .posInf ∈ depositAmounts s
  · have hsd : sumAmounts (depositAmounts s) = .posInf :=
      sumAmounts_posInf_of_mem hD hdOk
    have hsw := sumAmounts_ne_nan_negInf hwOk
    have htD : totalDeposits s = .posInf := by
      rw [totalDeposits, orZero_aggTotal (by rw [hsd]; simp), hsd]
    have htW : totalWithdrawals s = sumAmounts (withdrawAmounts s) := by
      rw [totalWithdrawals, orZero_aggTotal hsw.1]
    rw [getBalance, htD, htW]
    rcases hsw with ⟨hn, hg⟩
    cases hW : sumAmounts (withdrawAmounts s) <;> simp_all [jsSub, jsAdd, jsNeg, jsLt]
  · have hWs : .posInf ∉ withdrawAmounts s := fun hc => hD (h3 hc)
    have hdFin : ∀ x ∈ depositAmounts s, ∃ p, x = .fin p := by
      intro x hx
      rcases hdOk x hx with ⟨hn, hg⟩
      exact fin_of_ne hn (fun hc => hD (hc ▸ hx)) hg
    have hwFin : ∀ x ∈ withdrawAmounts s, ∃ p, x = .fin p := by
      intro x hx
      rcases hwOk x hx with ⟨hn, hg⟩
      exact fin_of_ne hn (fun hc => hWs (hc ▸ hx)) hg
    rw [getBalance_fin hdFin hwFin]
    have hfb := h4 hD
    simp [jsLt]
    linarith

example : getBalance [] = .fin 0 := by
  norm_num [getBalance, totalDeposits, totalWithdrawals, depositAmounts, withdrawAmounts,
    aggTotal, sumAmounts, orZero, truthy, jsSub, jsAdd, jsNeg]
example : getBalance [⟨.deposit, .fin 100⟩, ⟨.withdrawal, .fin 30⟩] = .fin 70 := by
  norm_num [getBalance, totalDeposits, totalWithdrawals, depositAmounts, withdrawAmounts,
    aggTotal, sumAmounts, orZero, truthy, jsSub, jsAdd, jsNeg]
example : postDeposit [] (.num .nan) = ([], .error .castFailed) := by
  norm_num [postDeposit, jsLe, isNaN]
example : postWithdraw [] (.num .nan) = ([], .error .castFailed) := by
  norm_num [postWithdraw, withdrawBalance, aggBalance, orZero, jsLe, jsLt, isNaN]
example : postDeposit [] (.num .posInf) =
    ([⟨.deposit, .posInf⟩], .ok ⟨200, .deposited .posInf⟩) := by
  norm_num [postDeposit, jsLe, isNaN]
example : postWithdraw [⟨.deposit, .fin 100⟩] (.num (.fin 150)) =
    ([⟨.deposit, .fin 100⟩], .ok ⟨400, .err "Insufficient funds"⟩) := by
  norm_num [postWithdraw, withdrawBalance, aggBalance, signedTotal, signedAmount,
    sumAmounts, orZero, truthy, jsLe, jsLt, jsAdd, jsNeg]
example : getBalance [⟨.deposit, .nan⟩] = .fin 0 := by
  norm_num [getBalance, totalDeposits, totalWithdrawals, depositAmounts, withdrawAmounts,
    aggTotal, sumAmounts, orZero, truthy, jsSub, jsAdd, jsNeg]
example : specBalance [⟨.deposit, .nan⟩] = .nan := by
  norm_num [specBalance, depositAmounts, withdrawAmounts, sumAmounts, jsSub, jsAdd, jsNeg]
example : postWithdraw [⟨.deposit, .fin 100⟩, ⟨.withdrawal, .nan⟩] (.num (.fin 50)) =
    ([⟨.deposit, .fin 100⟩, ⟨.withdrawal, .nan⟩], .ok ⟨400, .err "Insufficient funds"⟩) := by
  norm_num [postWithdraw, withdrawBalance, aggBalance, signedTotal, signedAmount,
    sumAmounts, orZero, truthy, jsLe, jsLt, jsAdd, jsNeg]
example : getBalance [⟨.deposit, .fin 100⟩, ⟨.withdrawal, .nan⟩] = .fin 100 := by
  norm_num [getBalance, totalDeposits, totalWithdrawals, depositAmounts, withdrawAmounts,
    aggTotal, sumAmounts, orZero, truthy, jsSub, jsAdd, jsNeg]

/-!
The claim theorems. Each claim of the specification is settled against the
embedded handlers; corrected claims come with a concrete counterexample
theorem showing the original wording fails on the code.
-/

/-- Claim C1 (amended): for every set of persisted transactions whose
deposit aggregate and withdrawal aggregate are not NaN, the balance
returned by GET /balance equals the sum of the deposit amounts minus the
sum of the withdrawal amounts, and the empty history yields balance 0.
(The original unconditional claim fails when an aggregate is NaN, because
the handler's `|| 0` coercion replaces a NaN aggregate by 0.) -/
theorem balance_eq_spec_sum (s : List Transaction)
    (hd : sumAmounts (depositAmounts s) ≠ .nan)
    (hw : sumAmounts (withdrawAmounts s) ≠ .nan) :
    getBalance s = specBalance s ∧ getBalance [] = .fin 0 := by
  refine ⟨getBalance_eq_spec hd hw, ?_⟩
  norm_num [getBalance, totalDeposits, totalWithdrawals, depositAmounts, withdrawAmounts,
    aggTotal, sumAmounts, orZero, jsSub, jsAdd, jsNeg]

/-- Witness for C1 at a concrete two-transaction store. -/
theorem balance_eq_spec_sum_witness :
    getBalance [⟨TxKind.deposit, JSNum.fin 3⟩, ⟨TxKind.withdrawal, JSNum.fin 1⟩] =
      specBalance [⟨TxKind.deposit, JSNum.fin 3⟩, ⟨TxKind.withdrawal, JSNum.fin 1⟩] ∧
    getBalance [] = .fin 0 :=
  balance_eq_spec_sum _
    (by simp [depositAmounts, sumAmounts, jsAdd])
    (by simp [withdrawAmounts, sumAmounts, jsAdd])

/-- Counterexample to C1 as stated: on a store holding a NaN-amount
deposit document (the claim quantifies over every set of persisted
transactions) GET /balance answers 0 while the sum of deposits minus the
sum of withdrawals is NaN. -/
theorem balance_spec_sum_cex :
    getBalance [(⟨TxKind.deposit, JSNum.nan⟩ : Transaction)] = .fin 0 ∧
    specBalance [(⟨TxKind.deposit, JSNum.nan⟩ : Transaction)] = .nan ∧
    getBalance [(⟨TxKind.deposit, JSNum.nan⟩ : Transaction)] ≠
      specBalance [(⟨TxKind.deposit, JSNum.nan⟩ : Transaction)] := by
  have h1 : getBalance [(⟨TxKind.deposit, JSNum.nan⟩ : Transaction)] = .fin 0 := by
    norm_num [getBalance, totalDeposits, totalWithdrawals, depositAmounts,
      withdrawAmounts, aggTotal, sumAmounts, orZero, truthy, jsSub, jsAdd, jsNeg]
  have h2 : specBalance [(⟨TxKind.deposit, JSNum.nan⟩ : Transaction)] = .nan := by
    norm_num [specBalance, depositAmounts, withdrawAmounts, sumAmounts, jsSub,
      jsAdd, jsNeg]
  refine ⟨h1, h2, ?_⟩
  rw [h1, h2]
  decide

/-- Claim C2 (amended): POST /deposit and POST /withdraw reject with 400
and their InvalidAmount error, persisting nothing, exactly when the
supplied amount is not a JS number or compares `<= 0` under JS semantics.
(The original claim fails: NaN and +Infinity are not positive finite
numbers, yet `NaN <= 0` and `Infinity <= 0` are both false, so the
validation admits them; +Infinity is then persisted with a 200, while a
NaN amount faults later at the store's Number cast — neither produces
the claimed 400 InvalidAmount rejection.) -/
theorem deposit_withdraw_validation_iff (s : List Transaction) (v : JSValue) :
    ((postDeposit s v).2 = .ok ⟨400, .err "Invalid deposit amount"⟩ ↔
      validAmount v = false) ∧
    ((postWithdraw s v).2 = .ok ⟨400, .err "Invalid withdrawal amount"⟩ ↔
      validAmount v = false) ∧
    (validAmount v = false → (postDeposit s v).1 = s ∧ (postWithdraw s v).1 = s) := by
  cases v with
  | num a =>
      by_cases h : jsLe a (.fin 0) = true
      · simp [postDeposit, postWithdraw, validAmount, h]
      · have h' : jsLe a (.fin 0) = false := by simpa using h
        by_cases hn : isNaN a = true
        · by_cases hb : jsLt (withdrawBalance s) a = true
          · simp [postDeposit, postWithdraw, validAmount, h', hn, hb]
          · have hb' : jsLt (withdrawBalance s) a = false := by simpa using hb
            simp [postDeposit, postWithdraw, validAmount, h', hn, hb']
        · have hn' : isNaN a = false := by simpa using hn
          by_cases hb : jsLt (withdrawBalance s) a = true
          · simp [postDeposit, postWithdraw, validAmount, h', hn', hb]
          · have hb' : jsLt (withdrawBalance s) a = false := by simpa using hb
            simp [postDeposit, postWithdraw, validAmount, h', hn', hb']
  | str s2 => simp [postDeposit, postWithdraw, validAmount]
  | boolean b => simp [postDeposit, postWithdraw, validAmount]
  | null => simp [postDeposit, postWithdraw, validAmount]
  | undef => simp [postDeposit, postWithdraw, validAmount]

/-- Counterexample to C2 as stated: +Infinity is not a positive finite
number, yet both endpoints accept it and persist a transaction (a JSON
body `1e999` parses to Infinity, and Mongoose's Number cast stores it). -/
theorem validation_accepts_posInf_cex :
    specPositiveFinite (.num .posInf) = false ∧
    postDeposit [] (.num .posInf) =
      ([⟨.deposit, .posInf⟩], .ok ⟨200, .deposited .posInf⟩) ∧
    postWithdraw [(⟨TxKind.deposit, JSNum.posInf⟩ : Transaction)] (.num .posInf) =
      ([⟨.deposit, .posInf⟩, ⟨.withdrawal, .posInf⟩], .ok ⟨200, .withdrew .posInf⟩) := by
  refine ⟨rfl, ?_, ?_⟩
  · norm_num [postDeposit, jsLe, isNaN]
  · norm_num [postWithdraw, withdrawBalance, aggBalance, signedTotal, signedAmount,
      sumAmounts, orZero, truthy, jsLe, jsLt, jsAdd, jsNeg, isNaN]

/-- Claim C3: in every store state reachable from the empty store by
completed deposit, withdraw and clear requests, every persisted
transaction satisfies amount > 0. Amounts reaching `save()` passed the
guard (a number not comparing `<= 0`) and Mongoose's Number cast rejects
NaN, so every persisted amount is a positive rational or +Infinity, and
both compare `> 0` in JS. -/
theorem reachable_amounts_positive {s : List Transaction} (h : ReachableStore s) :
    ∀ t ∈ s, jsLt (.fin 0) t.amount = true := by
  intro t ht
  have hI := reachable_storeInv h
  exact jsLt_zero_of_admitted (hI.1 t ht) (hI.2.1 t ht)

/-- Witness for C3 at a concrete reachable one-deposit store and its
single transaction. -/
theorem reachable_amounts_positive_witness :
    jsLt (.fin 0) (Transaction.mk TxKind.deposit (JSNum.fin 7)).amount = true := by
  have h1 := ReachableStore.step (BankRequest.depositReq (.num (.fin 7))) ReachableStore.empty
  have e : bankStep [] (BankRequest.depositReq (.num (.fin 7))) =
      [⟨TxKind.deposit, JSNum.fin 7⟩] := by
    norm_num [bankStep, postDeposit, jsLe, isNaN]
  exact reachable_amounts_positive (e ▸ h1) ⟨TxKind.deposit, JSNum.fin 7⟩ (by simp)

/-- Claim C4: for every store state and every validation-passing amount
strictly greater (in JS comparison) than the balance GET /balance reports,
POST /withdraw responds 400 with error "Insufficient funds" and leaves the
transaction collection unchanged. -/
theorem withdraw_insufficient_rejected (s : List Transaction) (a : JSNum)
    (hval : jsLe a (.fin 0) = false)
    (hgt : jsLt (getBalance s) a = true) :
    postWithdraw s (.num a) = (s, .ok ⟨400, .err "Insufficient funds"⟩) := by
  have hna : a ≠ .nan := (ne_nan_of_jsLt hgt).2
  have hB : jsLt (withdrawBalance s) a = true := by
    by_contra hc
    have hc' : jsLt (withdrawBalance s) a = false := by simpa using hc
    rcases orZero_eq_or (aggBalance s) with h0 | ⟨v, hv, htr, hve⟩
    · have hB0 : withdrawBalance s = .fin 0 := h0
      rw [hB0] at hc'
      have hle : jsLe a (.fin 0) = true := jsLe_of_not_lt hna (by simp) hc'
      rw [hval] at hle
      exact Bool.noConfusion hle
    · have hBv : withdrawBalance s = v := hve
      have hvs : v = signedTotal s := aggBalance_some hv
      have hvn : v ≠ .nan := by
        intro hc2
        rw [hc2] at htr
        exact Bool.noConfusion htr
      have hst : signedTotal s ≠ .nan := hvs ▸ hvn
      have hst2 : jsSub (sumAmounts (depositAmounts s))
          (sumAmounts (withdrawAmounts s)) ≠ .nan := by
        rw [← signedTotal_decomp]
        exact hst
      have hparts := jsSub_ne_nan_parts hst2
      have hgb : getBalance s = withdrawBalance s := by
        rw [getBalance_eq_spec hparts.1 hparts.2, hBv, hvs, signedTotal_decomp]
        rfl
      rw [hgb, hc'] at hgt
      exact Bool.noConfusion hgt
  simp [postWithdraw, hval, hB]

/-- Witness for C4: withdrawing 5 from the empty store. -/
theorem withdraw_insufficient_rejected_witness :
    postWithdraw [] (.num (.fin 5)) = ([], .ok ⟨400, .err "Insufficient funds"⟩) :=
  withdraw_insufficient_rejected [] (.fin 5)
    (by norm_num [jsLe])
    (by norm_num [getBalance, totalDeposits, totalWithdrawals, depositAmounts,
      withdrawAmounts, aggTotal, sumAmounts, orZero, jsSub, jsAdd, jsNeg, jsLt])

/-- Claim C5 (amended): for every store whose transactions all passed
admission and none of which has a NaN amount, and every validation-passing
amount that compares `<=` the GET /balance value, POST /withdraw succeeds,
appends exactly one withdrawal transaction of that amount, and the balance
afterwards equals the balance before minus that amount (JS subtraction).
(The original claim quantifies over every store state and fails on a
store holding a NaN-amount document: the two balance computations then
disagree and an affordable withdrawal is rejected.) -/
theorem withdraw_admitted_decreases_balance (s : List Transaction) (a : JSNum)
    (hAdm : Admitted s) (hNoNaN : NoNaNAmount s)
    (hval : jsLe a (.fin 0) = false)
    (hle : jsLe a (getBalance s) = true) :
    postWithdraw s (.num a) = (s ++ [⟨.withdrawal, a⟩], .ok ⟨200, .withdrew a⟩) ∧
    getBalance (s ++ [⟨.withdrawal, a⟩]) = jsSub (getBalance s) a := by
  obtain ⟨hdOk, hwOk⟩ := amounts_ok_of hAdm hNoNaN
  have hsd := sumAmounts_ne_nan_negInf hdOk
  have hsw := sumAmounts_ne_nan_negInf hwOk
  have hgb : getBalance s =
      jsSub (sumAmounts (depositAmounts s)) (sumAmounts (withdrawAmounts s)) := by
    rw [getBalance_eq_spec hsd.1 hsw.1]
    rfl
  have hna : a ≠ .nan := (ne_nan_of_jsLe hle).1
  have hst : signedTotal s ≠ .nan := by
    rw [signedTotal_decomp]
    intro hc
    rcases (jsSub_eq_nan _ _).mp hc with h | h | ⟨h4, h5⟩ | ⟨h4, h5⟩
    · exact hsd.1 h
    · exact hsw.1 h
    · rw [hgb, h4, h5] at hle
      simp [jsSub, jsAdd, jsNeg, jsLe_nan_right] at hle
    · exact hsd.2 h4
  have hwb : withdrawBalance s = getBalance s := by
    rw [withdrawBalance_eq_signedTotal hst, signedTotal_decomp, hgb]
  have hlt : jsLt (withdrawBalance s) a = false := by
    rw [hwb]
    exact jsLt_false_of_le hle
  have hnB : isNaN a = false := isNaN_false_of_ne_nan hna
  constructor
  · simp [postWithdraw, hval, hlt, hnB]
  · have hd2 := depositAmounts_append_wd s a
    have hw2 := withdrawAmounts_append_wd s a
    have hsw2 : sumAmounts (withdrawAmounts (s ++ [⟨.withdrawal, a⟩])) =
        jsAdd (sumAmounts (withdrawAmounts s)) a := by
      rw [hw2, sumAmounts_append_single]
    have hswn : jsAdd (sumAmounts (withdrawAmounts s)) a ≠ .nan := by
      intro hc
      rcases (jsAdd_eq_nan _ _).mp hc with h | h | ⟨h4, h5⟩ | ⟨h4, h5⟩
      · exact hsw.1 h
      · exact hna h
      · exact ne_negInf_of_admitted hval h5
      · exact hsw.2 h4
    have hgb2 := getBalance_eq_spec (s := s ++ [⟨.withdrawal, a⟩])
      (by rw [hd2]; exact hsd.1) (by rw [hsw2]; exact hswn)
    rw [hgb2]
    unfold specBalance
    rw [hd2, hsw2, jsSub_jsAdd_right, hgb]

/-- Witness for C5: withdrawing 4 against a balance of 10. -/
theorem withdraw_admitted_decreases_balance_witness :
    postWithdraw [⟨TxKind.deposit, JSNum.fin 10⟩] (.num (.fin 4)) =
      ([⟨TxKind.deposit, JSNum.fin 10⟩] ++ [⟨TxKind.withdrawal, JSNum.fin 4⟩],
        .ok ⟨200, .withdrew (.fin 4)⟩) ∧
    getBalance ([⟨TxKind.deposit, JSNum.fin 10⟩] ++ [⟨TxKind.withdrawal, JSNum.fin 4⟩]) =
      jsSub (getBalance [⟨TxKind.deposit, JSNum.fin 10⟩]) (.fin 4) :=
  withdraw_admitted_decreases_balance _ _
    (by intro t ht; simp at ht; subst ht; norm_num [jsLe])
    (by intro t ht; simp at ht; subst ht; simp)
    (by norm_num [jsLe])
    (by norm_num [getBalance, totalDeposits, totalWithdrawals, depositAmounts,
      withdrawAmounts, aggTotal, sumAmounts, orZero, truthy, jsSub, jsAdd, jsNeg, jsLe])

/-- Counterexample to C5 as stated: on a store holding a NaN-amount
withdrawal document (the claim quantifies over every store state) the
reported balance is 100, yet withdrawing 50 is rejected as insufficient,
because the single-pass aggregate collapses to 0 under the `|| 0`
coercion. -/
theorem withdraw_rejected_below_balance_cex :
    jsLe (.fin 50)
      (getBalance [⟨TxKind.deposit, JSNum.fin 100⟩, ⟨TxKind.withdrawal, JSNum.nan⟩]) = true ∧
    jsLe (JSNum.fin 50) (.fin 0) = false ∧
    postWithdraw [⟨TxKind.deposit, JSNum.fin 100⟩, ⟨TxKind.withdrawal, JSNum.nan⟩]
        (.num (.fin 50)) =
      ([⟨TxKind.deposit, JSNum.fin 100⟩, ⟨TxKind.withdrawal, JSNum.nan⟩],
        .ok ⟨400, .err "Insufficient funds"⟩) := by
  have hgb : getBalance [⟨TxKind.deposit, JSNum.fin 100⟩, ⟨TxKind.withdrawal, JSNum.nan⟩] =
      .fin 100 := by
    norm_num [getBalance, totalDeposits, totalWithdrawals, depositAmounts,
      withdrawAmounts, aggTotal, sumAmounts, orZero, truthy, jsSub, jsAdd, jsNeg]
  refine ⟨?_, ?_, ?_⟩
  · rw [hgb]
    norm_num [jsLe]
  · norm_num [jsLe]
  · norm_num [postWithdraw, withdrawBalance, aggBalance, signedTotal, signedAmount,
      sumAmounts, orZero, truthy, jsLe, jsLt, jsAdd, jsNeg]

/-- Claim C6 (amended): the single-pass signed aggregate of POST /withdraw
and the two-aggregation balance of GET /balance agree on every store whose
signed aggregate is not NaN; they can disagree otherwise, since only the
withdraw handler's `|| 0` coercion turns the NaN into 0. -/
theorem withdraw_balance_eq_get_balance (s : List Transaction)
    (h : signedTotal s ≠ .nan) :
    withdrawBalance s = getBalance s := by
  have hst2 : jsSub (sumAmounts (depositAmounts s))
      (sumAmounts (withdrawAmounts s)) ≠ .nan := by
    rw [← signedTotal_decomp]
    exact h
  have hparts := jsSub_ne_nan_parts hst2
  rw [withdrawBalance_eq_signedTotal h, signedTotal_decomp,
    getBalance_eq_spec hparts.1 hparts.2]
  rfl

/-- Witness for C6 at a concrete two-transaction store. -/
theorem withdraw_balance_eq_get_balance_witness :
    withdrawBalance [⟨TxKind.deposit, JSNum.fin 2⟩, ⟨TxKind.withdrawal, JSNum.fin 1⟩] =
      getBalance [⟨TxKind.deposit, JSNum.fin 2⟩, ⟨TxKind.withdrawal, JSNum.fin 1⟩] :=
  withdraw_balance_eq_get_balance _
    (by norm_num [signedTotal, signedAmount, sumAmounts, jsAdd, jsNeg]; decide)

/-- Counterexample to C6 as stated: with a +Infinity deposit and a
+Infinity withdrawal the withdraw handler computes balance 0 while GET
/balance computes NaN. -/
theorem withdraw_get_balance_differ_cex :
    withdrawBalance [⟨TxKind.deposit, JSNum.posInf⟩, ⟨TxKind.withdrawal, JSNum.posInf⟩] =
      .fin 0 ∧
    getBalance [⟨TxKind.deposit, JSNum.posInf⟩, ⟨TxKind.withdrawal, JSNum.posInf⟩] = .nan ∧
    withdrawBalance [⟨TxKind.deposit, JSNum.posInf⟩, ⟨TxKind.withdrawal, JSNum.posInf⟩] ≠
      getBalance [⟨TxKind.deposit, JSNum.posInf⟩, ⟨TxKind.withdrawal, JSNum.posInf⟩] := by
  have h1 : withdrawBalance [⟨TxKind.deposit, JSNum.posInf⟩,
      ⟨TxKind.withdrawal, JSNum.posInf⟩] = .fin 0 := by
    norm_num [withdrawBalance, aggBalance, signedTotal, signedAmount, sumAmounts,
      orZero, truthy, jsAdd, jsNeg]
  have h2 : getBalance [⟨TxKind.deposit, JSNum.posInf⟩,
      ⟨TxKind.withdrawal, JSNum.posInf⟩] = .nan := by
    norm_num [getBalance, totalDeposits, totalWithdrawals, depositAmounts,
      withdrawAmounts, aggTotal, sumAmounts, orZero, truthy, jsSub, jsAdd, jsNeg]
  refine ⟨h1, h2, ?_⟩
  rw [h1, h2]
  decide

/-- Claim C7: DELETE /transactions always responds 200 with message "All
transactions cleared." (also on an empty collection), and immediately
afterwards GET /transactions returns the empty list and GET /balance
returns 0. -/
theorem clear_transactions_ok (s : List Transaction) :
    deleteTransactions s = ([], ⟨200, .msg "All transactions cleared."⟩) ∧
    getTransactions (deleteTransactions s).1 = ⟨200, .txList []⟩ ∧
    getBalance (deleteTransactions s).1 = .fin 0 := by
  refine ⟨rfl, rfl, ?_⟩
  norm_num [deleteTransactions, getBalance, totalDeposits, totalWithdrawals,
    depositAmounts, withdrawAmounts, aggTotal, sumAmounts, orZero, jsSub, jsAdd, jsNeg]

/-- Claim C8 (amended): in every store state reachable from the empty
store by completed deposit, withdraw and clear requests processed one at
a time, the computed balance never compares below 0: it is nonnegative
or NaN, the NaN case arising only after a +Infinity deposit and a
+Infinity withdrawal. (The original `balance >= 0` fails because the
store reached by deposit +Infinity, withdraw +Infinity has balance
`Infinity - Infinity = NaN`, and `NaN >= 0` is false in JS.) -/
theorem reachable_balance_not_negative {s : List Transaction} (h : ReachableStore s) :
    jsLt (getBalance s) (.fin 0) = false :=
  balance_not_negative_of_inv (reachable_storeInv h)

/-- Witness for C8 at a concrete reachable one-deposit store. -/
theorem reachable_balance_not_negative_witness :
    jsLt (getBalance [⟨TxKind.deposit, JSNum.fin 9⟩]) (.fin 0) = false := by
  have h1 := ReachableStore.step (BankRequest.depositReq (.num (.fin 9))) ReachableStore.empty
  have e : bankStep [] (BankRequest.depositReq (.num (.fin 9))) =
      [⟨TxKind.deposit, JSNum.fin 9⟩] := by
    norm_num [bankStep, postDeposit, jsLe, isNaN]
  exact reachable_balance_not_negative (e ▸ h1)

/-- Counterexample to C8 as stated: depositing +Infinity and then
withdrawing +Infinity are both completed requests (the withdrawal passes
because `Infinity > Infinity` is false), and the reached store's balance
is `Infinity - Infinity = NaN`, which does not compare `>= 0`. -/
theorem reachable_nan_balance_cex :
    ReachableStore [⟨TxKind.deposit, JSNum.posInf⟩, ⟨TxKind.withdrawal, JSNum.posInf⟩] ∧
    getBalance [⟨TxKind.deposit, JSNum.posInf⟩, ⟨TxKind.withdrawal, JSNum.posInf⟩] =
      .nan ∧
    jsLe (.fin 0) (getBalance [⟨TxKind.deposit, JSNum.posInf⟩,
      ⟨TxKind.withdrawal, JSNum.posInf⟩]) = false := by
  have hg : getBalance [⟨TxKind.deposit, JSNum.posInf⟩,
      ⟨TxKind.withdrawal, JSNum.posInf⟩] = .nan := by
    norm_num [getBalance, totalDeposits, totalWithdrawals, depositAmounts,
      withdrawAmounts, aggTotal, sumAmounts, orZero, truthy, jsSub, jsAdd, jsNeg]
  refine ⟨?_, hg, ?_⟩
  · have h1 := ReachableStore.step (BankRequest.depositReq (.num .posInf))
      ReachableStore.empty
    have e1 : bankStep [] (BankRequest.depositReq (.num .posInf)) =
        [⟨TxKind.deposit, JSNum.posInf⟩] := by
      norm_num [bankStep, postDeposit, jsLe, isNaN]
    rw [e1] at h1
    have h2 := ReachableStore.step (BankRequest.withdrawReq (.num .posInf)) h1
    have e2 : bankStep [⟨TxKind.deposit, JSNum.posInf⟩]
        (BankRequest.withdrawReq (.num .posInf)) =
        [⟨TxKind.deposit, JSNum.posInf⟩, ⟨TxKind.withdrawal, JSNum.posInf⟩] := by
      norm_num [bankStep, postWithdraw, withdrawBalance, aggBalance, signedTotal,
        signedAmount, sumAmounts, orZero, truthy, jsLe, jsLt, jsAdd, jsNeg, isNaN]
    rwa [e2] at h2
  · rw [hg]
    simp [jsLe_nan_right]

/-- Claim C9: the bank routes never touch the users collection, the user
routes never touch the transactions collection, and consequently every
user operation leaves the balance unchanged. -/
theorem bank_user_frame_disjoint (st : AppState) (v : JSValue) (oid : Nat)
    (name : JSValue) :
    (appPostDeposit st v).1.users = st.users ∧
    (appPostWithdraw st v).1.users = st.users ∧
    (appDeleteTransactions st).1.users = st.users ∧
    (appPostUsers st oid name).1.txs = st.txs ∧
    (appPutUserById st oid name).1.txs = st.txs ∧
    (appDeleteUserById st oid).1.txs = st.txs ∧
    getBalance (appPostUsers st oid name).1.txs = getBalance st.txs ∧
    getBalance (appPutUserById st oid name).1.txs = getBalance st.txs ∧
    getBalance (appDeleteUserById st oid).1.txs = getBalance st.txs :=
  ⟨rfl, rfl, rfl, rfl, rfl, rfl, rfl, rfl, rfl⟩

/-- Claim C10: a POST /users request whose body carries no name fails the
store's required-field validation: no user record is created and the
request terminates as an unhandled fault, not as a structured response. -/
theorem post_users_missing_name_fault (st : AppState) (oid : Nat) :
    (appPostUsers st oid .undef).2 = Except.error MongooseFault.validationFailed ∧
    (appPostUsers st oid .undef).1 = st ∧
    ∀ r : Response, (appPostUsers st oid .undef).2 ≠ Except.ok r := by
  refine ⟨rfl, ?_, fun r => ?_⟩
  · simp [appPostUsers, postUsers, requiredNamePresent]
  · simp [appPostUsers, postUsers, requiredNamePresent]
